import Mathlib

/-! # ShaftTorsionCalculator

A shallow embedding of `src/ShaftTorsionCalculator.cpp` and the properties of it
that the specification states.

Modelling conventions.

* The C++ `double` is modelled by an arbitrary field `K`; the theorems are stated
  over `ℝ`, so rounding, overflow, infinities and NaN are outside the model and
  `x / 0 = 0` as in every Mathlib field.  Every definition is computable for a
  computable field such as `ℚ`; the only operation that is not is the real square
  root, which enters through the class `HasSqrt`.
* Where the exactness of a value is itself the question (`momentAt(L)` against
  `M_end`), the arithmetic of `double` is modelled as well: `roundDouble` rounds a
  rational to the nearest number with 53 significant bits, ties to even, and
  `momentSlopeDouble`, `Section.momentAtDouble` round after every operation as
  IEEE 754 binary64 does.  The exponent range is unbounded, so the model is that
  of the program as long as no overflow or underflow occurs.
* `M_PI` is the decimal constant written in the source, not the number `π`
  (`M_PI_lt_pi` and `pi_lt_M_PI_add` relate the two).
* `std::pow` is only called with integer exponents and is modelled by `zpow`.
* The interactive driver `main` is modelled on an already tokenised input: a list
  of `Record`s, one per section the user enters.  The content of the
  uninitialised local `Section s;` of iteration `i` is the parameter `junk i`.
  Prompts and number formatting are not modelled; the output is the exit status
  and the list of report blocks.
-/

namespace ShaftTorsion

/-- The square root of `<cmath>`; `Real.sqrt` on the reals. -/
class HasSqrt (K : Type) where
  sqrt : K → K

noncomputable instance instHasSqrtReal : HasSqrt ℝ := ⟨Real.sqrt⟩

/-- The struct `Section` (lines 11-24); `K` stands for `double`. -/
structure Section (K : Type) where
  shape : String
  L : K
  G : K
  M0 : K
  m : K
  M_end : K
  d : K
  D : K
  a : K
  b : K

section Formulas

variable {K : Type} [Field K]

/-- The constant of lines 7-9: `#define M_PI 3.14159265358979323846`. -/
def M_PI : K := 3.14159265358979323846

/-- The function `std::pow`, at the integer exponents the program uses. -/
def pow (x : K) (n : ℤ) : K := x ^ n

/-- The member `Section::inertiaMoment` (lines 26-41). -/
def Section.inertiaMoment (s : Section K) : K :=
  if s.shape = "circle" then
    M_PI * pow s.d 4 / 32.0
  else if s.shape = "rectangle" then
    let ratio : K := s.b / s.a
    let beta : K := (1.0 / 3.0) - 0.21 * ratio * (1 - pow ratio 4 / 12.0)
    s.a * pow s.b 3 * beta
  else if s.shape = "tube" then
    M_PI * (pow s.D 4 - pow s.d 4) / 32.0
  else
    0.0

/-- The member `Section::outerRadius` (lines 44-56). -/
def Section.outerRadius [HasSqrt K] (s : Section K) : K :=
  if s.shape = "circle" then
    s.d / 2.0
  else if s.shape = "rectangle" then
    0.5 * HasSqrt.sqrt (s.a * s.a + s.b * s.b)
  else if s.shape = "tube" then
    s.D / 2.0
  else
    0.0

/-- The member `Section::momentAt` (lines 59-61). -/
def Section.momentAt (s : Section K) (x : K) : K :=
  s.M0 - s.m * x

/-- The member `Section::sectionModulus` (lines 64-68). -/
def Section.sectionModulus [HasSqrt K] (s : Section K) : K :=
  let J : K := s.inertiaMoment
  let r : K := s.outerRadius
  J / r

/-- The member `Section::twistAngle` (lines 71-74). -/
def Section.twistAngle (s : Section K) : K :=
  let J : K := s.inertiaMoment
  (s.M_end * s.L) / (s.G * pow 10 6 * (J * 1e8) * pow 10 (-8))

end Formulas

section Driver

variable {K : Type} [Field K]

/-- What the user types for one section, in the order `main` reads it: the shape
line, the geometry (`dim_cm` is `d_cm`, `b_cm` or `D_cm`; `ratio` is `h_over_b` or
`d_over_D` and is not read for a circle), then `L`, `G`, `M0` and `M_end`. -/
structure Record (K : Type) where
  shape : String
  dim_cm : K
  ratio : K
  L : K
  G : K
  M0 : K
  M_end : K

/-- One iteration of the input loop of `main` (lines 89-139), started on the
uninitialised section `s0`.  The result is `none` where the source executes
`return 1` (line 121) and otherwise the section handed to `push_back`. -/
def readSection (s0 : Section K) (r : Record K) : Option (Section K) :=
  let s : Section K := { s0 with shape := r.shape }
  let s : Section K :=
    if s.shape = "circle" then
      { s with d := r.dim_cm / 100.0 }
    else if s.shape = "rectangle" then
      let s1 : Section K := { s with b := r.dim_cm / 100.0 }
      { s1 with a := r.ratio * s1.b }
    else if s.shape = "tube" then
      let s1 : Section K := { s with D := r.dim_cm / 100.0 }
      { s1 with d := r.ratio * s1.D }
    else
      s
  if s.shape ≠ "circle" ∧ s.shape ≠ "rectangle" ∧ s.shape ≠ "tube" then
    none
  else
    let s : Section K := { s with L := r.L, G := r.G, M0 := r.M0, M_end := r.M_end }
    some { s with m := (s.M0 - s.M_end) / s.L }

/-- The input loop of `main` (lines 88-140) from iteration `i` on, with the
vector `sections` filled so far; `none` is the early `return 1`. -/
def readLoop (junk : ℕ → Section K) :
    ℕ → List (Record K) → List (Section K) → Option (List (Section K))
  | _, [], sections => some sections
  | i, r :: rs, sections =>
    match readSection (junk i) r with
    | none => none
    | some s => readLoop junk (i + 1) rs (sections ++ [s])

/-- One report block (lines 153-159): the section number and the six values that
are printed, before formatting. -/
structure Report (K : Type) where
  number : ℕ
  shape : String
  J : K
  W : K
  M0 : K
  M_end : K
  phi : K

/-- The body of the report loop (lines 147-159) for the section at index `i`. -/
def reportBlock [HasSqrt K] (i : ℕ) (s : Section K) : Report K :=
  let J : K := s.inertiaMoment
  let W : K := s.sectionModulus
  let M_end : K := s.momentAt s.L
  let phi : K := s.twistAngle
  { number := i + 1, shape := s.shape, J := J * 1e8, W := W * 1e6, M0 := s.M0,
    M_end := M_end, phi := phi }

/-- The report loop of `main` (lines 146-160) from index `i` on. -/
def reportLoop [HasSqrt K] : ℕ → List (Section K) → List (Report K)
  | _, [] => []
  | i, s :: ss => reportBlock i s :: reportLoop (i + 1) ss

/-- The function `main` (lines 77-163) on the records the user enters, their
number being the `n` typed first: the exit status and the report blocks printed. -/
def main [HasSqrt K] (junk : ℕ → Section K) (records : List (Record K)) :
    ℕ × List (Report K) :=
  match readLoop junk 0 records [] with
  | none => (1, [])
  | some sections => (0, reportLoop 0 sections)

end Driver

/-! ## Double arithmetic -/

section DoubleArithmetic

/-- Rounding of a rational to the nearest integer, ties to the even one. -/
def roundHalfEven (q : ℚ) : ℤ :=
  if q - ⌊q⌋ < 1 / 2 then ⌊q⌋
  else if 1 / 2 < q - ⌊q⌋ then ⌊q⌋ + 1
  else if ⌊q⌋ % 2 = 0 then ⌊q⌋
  else ⌊q⌋ + 1

/-- The spacing of the doubles around `q ≠ 0`: with `2 ^ e ≤ |q| < 2 ^ (e + 1)` it is
`2 ^ (e - 52)`, a double having 53 significant bits. -/
def ulp (q : ℚ) : ℚ := 2 ^ (Int.log 2 |q| - 52)

/-- The double nearest to `q`, ties to even: the result of every arithmetic
operation on `double` is the rounded exact result. -/
def roundDouble (q : ℚ) : ℚ :=
  if q = 0 then 0 else roundHalfEven (q / ulp q) * ulp q

/-- The assignment `s.m = (s.M0 - s.M_end) / s.L` (line 136) in double arithmetic. -/
def momentSlopeDouble (M0 M_end L : ℚ) : ℚ :=
  roundDouble (roundDouble (M0 - M_end) / L)

/-- The member `Section::momentAt` (line 60, `M0 - m * x`) in double arithmetic. -/
def Section.momentAtDouble (s : Section ℚ) (x : ℚ) : ℚ :=
  roundDouble (s.M0 - roundDouble (s.m * x))

end DoubleArithmetic

/-- A possible content of the uninitialised local `Section s;` (line 89). -/
def unset {K : Type} [Field K] : Section K :=
  { shape := "", L := 0, G := 0, M0 := 0, m := 0, M_end := 0, d := 0, D := 0, a := 0, b := 0 }

/-! ## Concrete inputs

The end-to-end scenario and the sample sections of the specification's list of
testable properties. -/

/-- The end-to-end scenario as typed: `circle`, `d = 5` cm, `L = 1.0`, `G = 8e10`,
`M0 = 1000`, `M_end = 500`. -/
def scenarioRecord {K : Type} [Field K] : Record K :=
  { shape := "circle", dim_cm := 5, ratio := 0, L := 1.0, G := 8e10, M0 := 1000, M_end := 500 }

/-- The section `main` builds from `scenarioRecord` on `unset`. -/
def scenarioSection {K : Type} [Field K] : Section K :=
  { shape := "circle", L := 1.0, G := 8e10, M0 := 1000, m := 500, M_end := 500,
    d := 0.05, D := 0, a := 0, b := 0 }

/-- A tube with `D = 0.08` m and `d = 0.04` m. -/
def exampleTube {K : Type} [Field K] : Section K :=
  { shape := "tube", L := 1.0, G := 8e10, M0 := 1000, m := 500, M_end := 500,
    d := 0.04, D := 0.08, a := 0, b := 0 }

/-- A rectangle with `a = 0.06` m and `b = 0.03` m. -/
def exampleRectangle {K : Type} [Field K] : Section K :=
  { shape := "rectangle", L := 1.0, G := 8e10, M0 := 1000, m := 500, M_end := 500,
    d := 0, D := 0, a := 0.06, b := 0.03 }

/-- A record with the unrecognised shape name `square`. -/
def squareRecord {K : Type} [Field K] : Record K :=
  { shape := "square", dim_cm := 5, ratio := 0, L := 1.0, G := 8e10, M0 := 1000, M_end := 500 }

/-- A rectangle as typed: small side `b = 3` cm and ratio `h/b = 2`. -/
def rectangleRecord {K : Type} [Field K] : Record K :=
  { shape := "rectangle", dim_cm := 3, ratio := 2, L := 1.0, G := 8e10, M0 := 1000,
    M_end := 500 }

/-- A section as `main` builds it in double arithmetic from `L = 49`, `M0 = 1`,
`M_end = 0`, three numbers that are doubles. -/
def slopeSection : Section ℚ :=
  { shape := "circle", L := 49, G := 8e10, M0 := 1, m := momentSlopeDouble 1 0 49, M_end := 0,
    d := 0.05, D := 0, a := 0, b := 0 }

/-! ## Auxiliary facts -/

section Lemmas

theorem M_PI_pos : (0 : ℝ) < M_PI := by
  unfold M_PI
  norm_num

theorem M_PI_lt_pi : (M_PI : ℝ) < Real.pi := by
  unfold M_PI
  exact Real.pi_gt_d20

theorem pi_lt_M_PI_add : Real.pi < M_PI + 1e-20 := by
  have h := Real.pi_lt_d20
  unfold M_PI
  norm_num at h ⊢
  linarith

theorem pow_natCast (x : ℝ) (n : ℕ) : pow x (n : ℤ) = x ^ n := by
  unfold pow
  exact zpow_natCast x n

theorem inertiaMoment_circle (s : Section ℝ) (h : s.shape = "circle") :
    s.inertiaMoment = M_PI * s.d ^ 4 / 32 := by
  have h4 : pow s.d 4 = s.d ^ 4 := pow_natCast s.d 4
  simp [Section.inertiaMoment, h, h4]
  norm_num

theorem inertiaMoment_rectangle (s : Section ℝ) (h : s.shape = "rectangle") :
    s.inertiaMoment
      = s.a * s.b ^ 3 * (1 / 3 - 0.21 * (s.b / s.a) * (1 - (s.b / s.a) ^ 4 / 12)) := by
  have h4 : pow (s.b / s.a) 4 = (s.b / s.a) ^ 4 := pow_natCast (s.b / s.a) 4
  have h3 : pow s.b 3 = s.b ^ 3 := pow_natCast s.b 3
  simp [Section.inertiaMoment, h, h4, h3]
  norm_num

theorem inertiaMoment_tube (s : Section ℝ) (h : s.shape = "tube") :
    s.inertiaMoment = M_PI * (s.D ^ 4 - s.d ^ 4) / 32 := by
  have h4 : pow s.D 4 = s.D ^ 4 := pow_natCast s.D 4
  have h4d : pow s.d 4 = s.d ^ 4 := pow_natCast s.d 4
  simp [Section.inertiaMoment, h, h4, h4d]
  norm_num

theorem twistAngle_eq_scaled (s : Section ℝ) :
    s.twistAngle = (s.M_end * s.L) / (s.G * s.inertiaMoment * 10 ^ 6) := by
  unfold Section.twistAngle pow
  norm_num
  ring_nf

theorem readSection_scenario :
    readSection unset scenarioRecord = some (scenarioSection : Section ℝ) := by
  simp [readSection, unset, scenarioRecord, scenarioSection]
  norm_num

theorem readSection_loading (s0 : Section ℝ) (r : Record ℝ) (s : Section ℝ)
    (h : readSection s0 r = some s) :
    s.shape = r.shape ∧ s.L = r.L ∧ s.G = r.G ∧ s.M0 = r.M0 ∧ s.M_end = r.M_end
      ∧ s.m = (r.M0 - r.M_end) / r.L := by
  unfold readSection at h
  simp only [] at h
  split_ifs at h <;> simp at h <;> subst h <;> simp

theorem readSection_eq_none_iff (s0 : Section ℝ) (r : Record ℝ) :
    readSection s0 r = none
      ↔ (r.shape ≠ "circle" ∧ r.shape ≠ "rectangle" ∧ r.shape ≠ "tube") := by
  unfold readSection
  simp only []
  split_ifs <;> simp_all

theorem readLoop_eq_none_iff (junk : ℕ → Section ℝ) (rs : List (Record ℝ)) :
    ∀ (i : ℕ) (acc : List (Section ℝ)),
      readLoop junk i rs acc = none
        ↔ ∃ r ∈ rs, r.shape ≠ "circle" ∧ r.shape ≠ "rectangle" ∧ r.shape ≠ "tube" := by
  induction rs with
  | nil => intro i acc; simp [readLoop]
  | cons r rs ih =>
    intro i acc
    unfold readLoop
    cases h : readSection (junk i) r with
    | none =>
      have := (readSection_eq_none_iff (junk i) r).1 h
      simp [this]
    | some s =>
      have hv : ¬ (r.shape ≠ "circle" ∧ r.shape ≠ "rectangle" ∧ r.shape ≠ "tube") := by
        intro hc
        rw [(readSection_eq_none_iff (junk i) r).2 hc] at h
        cases h
      simp only [ih, List.mem_cons, exists_eq_or_imp]
      constructor
      · intro h'; exact Or.inr h'
      · rintro (h' | h')
        · exact absurd h' hv
        · exact h'

theorem readLoop_eq_some (junk : ℕ → Section ℝ) (rs : List (Record ℝ)) :
    ∀ (i : ℕ) (acc out : List (Section ℝ)), readLoop junk i rs acc = some out →
      ∃ ss : List (Section ℝ), out = acc ++ ss ∧ ss.length = rs.length ∧
        ∀ (j : ℕ) (r : Record ℝ), rs[j]? = some r →
          ∃ s, readSection (junk (i + j)) r = some s ∧ ss[j]? = some s := by
  induction rs with
  | nil =>
    intro i acc out h
    refine ⟨[], ?_, rfl, ?_⟩
    · simp [readLoop] at h
      simp [h]
    · intro j r hj
      simp at hj
  | cons r rs ih =>
    intro i acc out h
    unfold readLoop at h
    cases hr : readSection (junk i) r with
    | none => rw [hr] at h; cases h
    | some s =>
      rw [hr] at h
      obtain ⟨ss, h1, h2, h3⟩ := ih (i + 1) (acc ++ [s]) out h
      refine ⟨s :: ss, ?_, ?_, ?_⟩
      · rw [h1]; simp
      · simp [h2]
      · intro j r' hj
        cases j with
        | zero =>
          simp at hj
          subst hj
          exact ⟨s, hr, by simp⟩
        | succ j =>
          simp only [List.getElem?_cons_succ] at hj ⊢
          obtain ⟨s', hs1, hs2⟩ := h3 j r' hj
          refine ⟨s', ?_, hs2⟩
          rw [← hs1]
          congr 2
          omega

theorem reportLoop_length (ss : List (Section ℝ)) :
    ∀ i : ℕ, (reportLoop i ss).length = ss.length := by
  induction ss with
  | nil => intro i; rfl
  | cons s ss ih => intro i; simp [reportLoop, ih]

theorem reportLoop_getElem (ss : List (Section ℝ)) :
    ∀ i j : ℕ, (reportLoop i ss)[j]? = (ss[j]?).map (reportBlock (i + j)) := by
  induction ss with
  | nil => intro i j; simp [reportLoop]
  | cons s ss ih =>
    intro i j
    cases j with
    | zero => simp [reportLoop]
    | succ j =>
      simp only [reportLoop, List.getElem?_cons_succ, ih]
      have e : i + 1 + j = i + (j + 1) := by omega
      rw [e]

theorem reportBlock_readSection (s0 s0' : Section ℝ) (r : Record ℝ) (s s' : Section ℝ) (i : ℕ)
    (h : readSection s0 r = some s) (h' : readSection s0' r = some s') :
    reportBlock i s = reportBlock i s' := by
  unfold readSection at h h'
  simp only [] at h h'
  split_ifs at h h' with h1 h2 h3 h4
  all_goals first
    | (exfalso; simp_all; done)
    | (simp only [Option.some.injEq] at h h'
       subst h
       subst h'
       simp [reportBlock, Section.inertiaMoment, Section.sectionModulus, Section.outerRadius,
         Section.twistAngle, Section.momentAt, *])

theorem sqrt_real (x : ℝ) : HasSqrt.sqrt x = Real.sqrt x := rfl

theorem outerRadius_circle (s : Section ℝ) (h : s.shape = "circle") :
    s.outerRadius = s.d / 2 := by
  simp [Section.outerRadius, h]
  norm_num

theorem outerRadius_rectangle (s : Section ℝ) (h : s.shape = "rectangle") :
    s.outerRadius = 0.5 * Real.sqrt (s.a ^ 2 + s.b ^ 2) := by
  simp [Section.outerRadius, h, sqrt_real]
  norm_num [sq]

theorem outerRadius_tube (s : Section ℝ) (h : s.shape = "tube") :
    s.outerRadius = s.D / 2 := by
  simp [Section.outerRadius, h]
  norm_num

theorem inertiaMoment_congr (s t : Section ℝ) (hs : t.shape = s.shape) (hd : t.d = s.d)
    (hD : t.D = s.D) (ha : t.a = s.a) (hb : t.b = s.b) :
    t.inertiaMoment = s.inertiaMoment := by
  unfold Section.inertiaMoment
  rw [hs, hd, hD, ha, hb]

theorem readSection_geometry (s0 : Section ℝ) (r : Record ℝ) (s : Section ℝ)
    (h : readSection s0 r = some s) :
    (r.shape = "circle" → s.d = r.dim_cm / 100) ∧
    (r.shape = "rectangle" → s.b = r.dim_cm / 100 ∧ s.a = r.ratio * (r.dim_cm / 100)) ∧
    (r.shape = "tube" → s.D = r.dim_cm / 100 ∧ s.d = r.ratio * (r.dim_cm / 100)) := by
  unfold readSection at h
  simp only [] at h
  split_ifs at h with h1 h2 h3 h4
  all_goals first
    | (exfalso; simp_all; done)
    | (simp only [Option.some.injEq] at h
       subst h
       simp [*]
       try norm_num)

theorem geometry_congr (s t : Section ℝ) (hshape : t.shape = s.shape) :
    (s.shape = "circle" → t.d = s.d →
        t.inertiaMoment = s.inertiaMoment ∧ t.outerRadius = s.outerRadius
          ∧ t.sectionModulus = s.sectionModulus) ∧
    (s.shape = "rectangle" → t.a = s.a → t.b = s.b →
        t.inertiaMoment = s.inertiaMoment ∧ t.outerRadius = s.outerRadius
          ∧ t.sectionModulus = s.sectionModulus) ∧
    (s.shape = "tube" → t.D = s.D → t.d = s.d →
        t.inertiaMoment = s.inertiaMoment ∧ t.outerRadius = s.outerRadius
          ∧ t.sectionModulus = s.sectionModulus) := by
  refine ⟨?_, ?_, ?_⟩
  · intro h hd
    have ht : t.shape = "circle" := hshape.trans h
    have hJ : t.inertiaMoment = s.inertiaMoment := by
      rw [inertiaMoment_circle t ht, inertiaMoment_circle s h, hd]
    have hr : t.outerRadius = s.outerRadius := by
      rw [outerRadius_circle t ht, outerRadius_circle s h, hd]
    refine ⟨hJ, hr, ?_⟩
    show t.inertiaMoment / t.outerRadius = s.inertiaMoment / s.outerRadius
    rw [hJ, hr]
  · intro h ha hb
    have ht : t.shape = "rectangle" := hshape.trans h
    have hJ : t.inertiaMoment = s.inertiaMoment := by
      rw [inertiaMoment_rectangle t ht, inertiaMoment_rectangle s h, ha, hb]
    have hr : t.outerRadius = s.outerRadius := by
      rw [outerRadius_rectangle t ht, outerRadius_rectangle s h, ha, hb]
    refine ⟨hJ, hr, ?_⟩
    show t.inertiaMoment / t.outerRadius = s.inertiaMoment / s.outerRadius
    rw [hJ, hr]
  · intro h hD hd
    have ht : t.shape = "tube" := hshape.trans h
    have hJ : t.inertiaMoment = s.inertiaMoment := by
      rw [inertiaMoment_tube t ht, inertiaMoment_tube s h, hD, hd]
    have hr : t.outerRadius = s.outerRadius := by
      rw [outerRadius_tube t ht, outerRadius_tube s h, hD]
    refine ⟨hJ, hr, ?_⟩
    show t.inertiaMoment / t.outerRadius = s.inertiaMoment / s.outerRadius
    rw [hJ, hr]

theorem beta_pos (r : ℝ) (hr : 0 < r) : 0 < 1 / 3 - 0.21 * r * (1 - r ^ 4 / 12) := by
  have h1 : 0 ≤ (r - 5 / 4) ^ 2 * (r ^ 3 + 2 * (5 / 4) * r ^ 2 + 3 * (5 / 4) ^ 2 * r
      + 4 * (5 / 4) ^ 3) := by positivity
  norm_num at h1 ⊢
  nlinarith [h1]

theorem roundHalfEven_sub_abs (q : ℚ) : |(roundHalfEven q : ℚ) - q| ≤ 1 / 2 := by
  have h1 : (⌊q⌋ : ℚ) ≤ q := Int.floor_le q
  have h2 : q < ⌊q⌋ + 1 := Int.lt_floor_add_one q
  unfold roundHalfEven
  rw [abs_le]
  split_ifs with c1 c2 c3
  · constructor <;> linarith
  · push_cast
    constructor <;> linarith
  · constructor <;> linarith
  · push_cast
    constructor <;> linarith

theorem roundHalfEven_eq (q : ℚ) (n : ℤ) (h : |q - n| < 1 / 2) : roundHalfEven q = n := by
  rw [abs_lt] at h
  obtain ⟨h1, h2⟩ := h
  unfold roundHalfEven
  rcases le_or_lt (n : ℚ) q with hq | hq
  · have hf : ⌊q⌋ = n := Int.floor_eq_iff.2 ⟨hq, by linarith⟩
    rw [hf, if_pos (by linarith)]
  · have hf : ⌊q⌋ = n - 1 := Int.floor_eq_iff.2 ⟨by push_cast; linarith, by push_cast; linarith⟩
    rw [hf, if_neg (by push_cast; linarith), if_pos (by push_cast; linarith)]
    ring

theorem ulp_pos (q : ℚ) : 0 < ulp q := by
  unfold ulp
  positivity

theorem roundDouble_sub_abs (q : ℚ) : |roundDouble q - q| ≤ 2 ^ (-53 : ℤ) * |q| := by
  unfold roundDouble
  split_ifs with h0
  · simp [h0]
  · have hu := ulp_pos q
    have hq : 0 < |q| := abs_pos.2 h0
    have hlog : (2 : ℚ) ^ Int.log 2 |q| ≤ |q| := by
      have := Int.zpow_log_le_self (b := 2) (by norm_num) hq
      simpa using this
    have e1 : (roundHalfEven (q / ulp q) : ℚ) * ulp q - q
        = ((roundHalfEven (q / ulp q) : ℚ) - q / ulp q) * ulp q := by
      field_simp
    have e2 : ulp q = 2 ^ Int.log 2 |q| * 2 ^ (-52 : ℤ) := by
      unfold ulp
      rw [sub_eq_add_neg, zpow_add₀ (by norm_num)]
    rw [e1, abs_mul, abs_of_pos hu]
    calc |(roundHalfEven (q / ulp q) : ℚ) - q / ulp q| * ulp q
          ≤ 1 / 2 * ulp q := mul_le_mul_of_nonneg_right (roundHalfEven_sub_abs _) (le_of_lt hu)
      _ = 2 ^ (-53 : ℤ) * 2 ^ Int.log 2 |q| := by
          rw [e2]
          norm_num
          ring
      _ ≤ 2 ^ (-53 : ℤ) * |q| := mul_le_mul_of_nonneg_left hlog (by positivity)

theorem roundDouble_eq (q : ℚ) (e n : ℤ) (h1 : 2 ^ e ≤ |q|) (h2 : |q| < 2 ^ (e + 1))
    (h3 : |q / 2 ^ (e - 52) - n| < 1 / 2) : roundDouble q = n * 2 ^ (e - 52) := by
  have hq : 0 < |q| := lt_of_lt_of_le (by positivity) h1
  have h0 : q ≠ 0 := abs_pos.1 hq
  have hlog : Int.log 2 |q| = e := by
    have a1 : e ≤ Int.log 2 |q| := (Int.zpow_le_iff_le_log (b := 2) (by norm_num) hq).1
      (by simpa using h1)
    have a2 : Int.log 2 |q| < e + 1 := (Int.lt_zpow_iff_log_lt (b := 2) (by norm_num) hq).1
      (by simpa using h2)
    omega
  unfold roundDouble
  rw [if_neg h0]
  unfold ulp
  rw [hlog, roundHalfEven_eq _ n h3]

theorem roundDouble_eq_of_pos (q : ℚ) (e n : ℤ) (h1 : 2 ^ e ≤ q) (h2 : q < 2 ^ (e + 1))
    (h3 : (n : ℚ) - 1 / 2 < q / 2 ^ (e - 52)) (h4 : q / 2 ^ (e - 52) < n + 1 / 2) :
    roundDouble q = n * 2 ^ (e - 52) := by
  have hq : 0 < q := lt_of_lt_of_le (by positivity) h1
  apply roundDouble_eq q e n
  · rwa [abs_of_pos hq]
  · rwa [abs_of_pos hq]
  · rw [abs_lt]
    constructor <;> linarith

theorem momentAtDouble_zero (s : Section ℚ) : s.momentAtDouble 0 = roundDouble s.M0 := by
  unfold Section.momentAtDouble
  have h0 : roundDouble 0 = 0 := by simp [roundDouble]
  rw [mul_zero, h0, sub_zero]

theorem momentAtDouble_error (M0 M_end L : ℚ) (hL : L ≠ 0) :
    |roundDouble (M0 - roundDouble (momentSlopeDouble M0 M_end L * L)) - M_end|
      ≤ 2 ^ (-53 : ℤ) * |M_end| + 2 ^ (-51 : ℤ) * |M0 - M_end| := by
  unfold momentSlopeDouble
  set d := roundDouble (M0 - M_end) with hd
  set m := roundDouble (d / L) with hm
  set p := roundDouble (m * L) with hp
  set r := roundDouble (M0 - p) with hr
  have h1 : |d - (M0 - M_end)| ≤ 2 ^ (-53 : ℤ) * |M0 - M_end| := roundDouble_sub_abs _
  have h2 : |m - d / L| ≤ 2 ^ (-53 : ℤ) * |d / L| := roundDouble_sub_abs _
  have h3 : |p - m * L| ≤ 2 ^ (-53 : ℤ) * |m * L| := roundDouble_sub_abs _
  have h4 : |r - (M0 - p)| ≤ 2 ^ (-53 : ℤ) * |M0 - p| := roundDouble_sub_abs _
  have hLpos : 0 < |L| := abs_pos.2 hL
  have h2' : |m * L - d| ≤ 2 ^ (-53 : ℤ) * |d| := by
    have e : m * L - d = (m - d / L) * L := by field_simp
    have e' : |d| = |d / L| * |L| := by rw [← abs_mul]; congr 1; field_simp
    rw [e, abs_mul, e', ← mul_assoc]
    exact mul_le_mul_of_nonneg_right h2 (le_of_lt hLpos)
  have t1 : |d| ≤ |d - (M0 - M_end)| + |M0 - M_end| := by
    have := abs_add (d - (M0 - M_end)) (M0 - M_end)
    rwa [sub_add_cancel] at this
  have t2 : |m * L| ≤ |m * L - d| + |d| := by
    have := abs_add (m * L - d) d
    rwa [sub_add_cancel] at this
  have t3 : |p - (M0 - M_end)| ≤ |p - m * L| + |m * L - d| + |d - (M0 - M_end)| := by
    have a1 := abs_add (p - m * L) (m * L - d)
    have a2 := abs_add (p - m * L + (m * L - d)) (d - (M0 - M_end))
    have e : p - m * L + (m * L - d) + (d - (M0 - M_end)) = p - (M0 - M_end) := by ring
    rw [e] at a2
    linarith
  have t4 : |M0 - p| ≤ |M_end| + |p - (M0 - M_end)| := by
    have a1 := abs_sub M_end (p - (M0 - M_end))
    have e : M_end - (p - (M0 - M_end)) = M0 - p := by ring
    rw [e] at a1
    exact a1
  have t5 : |r - M_end| ≤ |r - (M0 - p)| + |p - (M0 - M_end)| := by
    have a1 := abs_sub (r - (M0 - p)) (p - (M0 - M_end))
    have e : r - (M0 - p) - (p - (M0 - M_end)) = r - M_end := by ring
    rw [e] at a1
    exact a1
  have n1 : |M0 - M_end| ≥ 0 := abs_nonneg _
  have n2 : |M_end| ≥ 0 := abs_nonneg _
  norm_num at h1 h2' h3 h4 ⊢
  linarith

theorem momentSlopeDouble_example :
    momentSlopeDouble 1 0 49 = 5882252574524729 / 2 ^ 58 := by
  unfold momentSlopeDouble
  have h1 : roundDouble (1 - 0) = 1 := by
    rw [roundDouble_eq_of_pos (1 - 0) 0 (2 ^ 52) (by norm_num) (by norm_num) (by norm_num)
      (by norm_num)]
    norm_num
  rw [h1, roundDouble_eq_of_pos (1 / 49) (-6) 5882252574524729 (by norm_num) (by norm_num)
    (by norm_num) (by norm_num)]
  norm_num

end Lemmas

/-! ## Claims -/

section Claims

/-- C1 (the code at the scenario of the specification): the powers of ten in
`Section::twistAngle` do not cancel.  On the section built from the end-to-end
scenario the value returned, multiplied by `10 ^ 6`, is the classical quotient
`(M_end * L) / (G * inertiaMoment())`; the value returned lies between `1.0185e-8`
and `1.0186e-8` whereas the classical quotient lies between `1.0185e-2` and
`1.0186e-2`, so the two differ. -/
theorem twistAngle_scenario_scaled :
    readSection unset scenarioRecord = some (scenarioSection : Section ℝ)
      ∧ (scenarioSection : Section ℝ).twistAngle * 10 ^ 6
          = ((scenarioSection : Section ℝ).M_end * (scenarioSection : Section ℝ).L)
              / ((scenarioSection : Section ℝ).G * (scenarioSection : Section ℝ).inertiaMoment)
      ∧ 1.0185e-8 < (scenarioSection : Section ℝ).twistAngle
      ∧ (scenarioSection : Section ℝ).twistAngle < 1.0186e-8
      ∧ 1.0185e-2 < ((scenarioSection : Section ℝ).M_end * (scenarioSection : Section ℝ).L)
              / ((scenarioSection : Section ℝ).G * (scenarioSection : Section ℝ).inertiaMoment)
      ∧ (scenarioSection : Section ℝ).twistAngle
          ≠ ((scenarioSection : Section ℝ).M_end * (scenarioSection : Section ℝ).L)
              / ((scenarioSection : Section ℝ).G * (scenarioSection : Section ℝ).inertiaMoment) := by
  have hJ : (scenarioSection : Section ℝ).inertiaMoment = M_PI * 0.05 ^ 4 / 32 :=
    inertiaMoment_circle _ rfl
  refine ⟨readSection_scenario, ?_, ?_, ?_, ?_, ?_⟩
  · rw [twistAngle_eq_scaled, hJ]
    norm_num [M_PI, scenarioSection]
  · rw [twistAngle_eq_scaled, hJ]
    norm_num [M_PI, scenarioSection]
  · rw [twistAngle_eq_scaled, hJ]
    norm_num [M_PI, scenarioSection]
  · rw [hJ]
    norm_num [M_PI, scenarioSection]
  · rw [twistAngle_eq_scaled, hJ]
    norm_num [M_PI, scenarioSection]

/-- C2 (counterexample): in double arithmetic the section `main` builds from
`L = 49`, `M0 = 1`, `M_end = 0` (all three are doubles) has `m = (1 - 0) / 49`
rounded and `momentAt(L) = 2 ^ (-53)`, about `1.1e-16`, which is not the `M_end = 0`
that was entered. -/
theorem momentAt_double_counterexample :
    roundDouble 1 = 1 ∧ roundDouble 0 = 0 ∧ roundDouble 49 = 49
      ∧ slopeSection.momentAtDouble slopeSection.L = 1 / 2 ^ 53
      ∧ slopeSection.momentAtDouble slopeSection.L ≠ slopeSection.M_end := by
  have hv : slopeSection.momentAtDouble slopeSection.L = 1 / 2 ^ 53 := by
    show roundDouble (1 - roundDouble (momentSlopeDouble 1 0 49 * 49)) = 1 / 2 ^ 53
    rw [momentSlopeDouble_example]
    have h2 : roundDouble (5882252574524729 / 2 ^ 58 * 49) = 9007199254740991 / 2 ^ 53 := by
      rw [roundDouble_eq_of_pos _ (-1) 9007199254740991 (by norm_num) (by norm_num)
        (by norm_num) (by norm_num)]
      norm_num
    rw [h2, roundDouble_eq_of_pos _ (-53) (2 ^ 52) (by norm_num) (by norm_num)
      (by norm_num) (by norm_num)]
    norm_num
  refine ⟨?_, ?_, ?_, hv, ?_⟩
  · rw [roundDouble_eq_of_pos 1 0 (2 ^ 52) (by norm_num) (by norm_num) (by norm_num)
      (by norm_num)]
    norm_num
  · simp [roundDouble]
  · rw [roundDouble_eq_of_pos 49 5 (49 * 2 ^ 47) (by norm_num) (by norm_num) (by norm_num)
      (by norm_num)]
    norm_num
  · rw [hv]
    norm_num [slopeSection]

/-- C2 (amended): in exact arithmetic a section whose `m` is `(M0 - M_end) / L`
with `L > 0` has `momentAt(0) = M0` and `momentAt(L) = M_end`, every section `main`
builds from a record with `L > 0` is such a section, and the "Moment at end" value
of its report block is the `M_end` entered.  In double arithmetic, for `m` computed
as on line 136 and `L > 0`, `momentAt(0)` is `M0` rounded (so `M0` itself when `M0`
is a double) and `momentAt(L)` differs from `M_end` by at most
`2 ^ (-53) * |M_end| + 2 ^ (-51) * |M0 - M_end|`. -/
theorem momentAt_endpoints :
    (∀ s : Section ℝ, 0 < s.L → s.m = (s.M0 - s.M_end) / s.L →
        s.momentAt 0 = s.M0 ∧ s.momentAt s.L = s.M_end) ∧
    (∀ (s0 : Section ℝ) (r : Record ℝ) (s : Section ℝ) (i : ℕ),
        readSection s0 r = some s → 0 < r.L →
        s.m = (s.M0 - s.M_end) / s.L ∧ 0 < s.L ∧ s.M_end = r.M_end ∧
          (reportBlock i s).M_end = r.M_end) ∧
    (∀ s : Section ℚ, 0 < s.L → s.m = momentSlopeDouble s.M0 s.M_end s.L →
        s.momentAtDouble 0 = roundDouble s.M0 ∧
          |s.momentAtDouble s.L - s.M_end|
            ≤ 2 ^ (-53 : ℤ) * |s.M_end| + 2 ^ (-51 : ℤ) * |s.M0 - s.M_end|) := by
  have key : ∀ s : Section ℝ, 0 < s.L → s.m = (s.M0 - s.M_end) / s.L →
      s.momentAt 0 = s.M0 ∧ s.momentAt s.L = s.M_end := by
    intro s hL hm
    have hne : s.L ≠ 0 := ne_of_gt hL
    constructor
    · simp [Section.momentAt]
    · unfold Section.momentAt
      rw [hm]
      field_simp
  refine ⟨key, ?_, ?_⟩
  · intro s0 r s i h hL
    obtain ⟨-, h1, -, h3, h4, h5⟩ := readSection_loading s0 r s h
    have hm : s.m = (s.M0 - s.M_end) / s.L := by rw [h5, h1, h3, h4]
    have hL2 : 0 < s.L := by rw [h1]; exact hL
    refine ⟨hm, hL2, h4, ?_⟩
    show s.momentAt s.L = r.M_end
    rw [(key s hL2 hm).2, h4]
  · intro s hL hm
    refine ⟨momentAtDouble_zero s, ?_⟩
    unfold Section.momentAtDouble
    rw [hm]
    exact momentAtDouble_error s.M0 s.M_end s.L (ne_of_gt hL)

/-- Witness of C2 (amended) at the end-to-end scenario and at `slopeSection`. -/
theorem momentAt_endpoints_witness :
    (scenarioSection : Section ℝ).momentAt 0 = 1000
      ∧ (scenarioSection : Section ℝ).momentAt 1 = 500
      ∧ (reportBlock 0 (scenarioSection : Section ℝ)).M_end = 500
      ∧ |slopeSection.momentAtDouble slopeSection.L - slopeSection.M_end|
          ≤ 2 ^ (-53 : ℤ) * |slopeSection.M_end|
            + 2 ^ (-51 : ℤ) * |slopeSection.M0 - slopeSection.M_end| := by
  have h1 := momentAt_endpoints.1 (scenarioSection : Section ℝ)
    (by norm_num [scenarioSection]) (by norm_num [scenarioSection])
  have h2 := momentAt_endpoints.2.1 unset scenarioRecord scenarioSection 0
    readSection_scenario (by norm_num [scenarioRecord])
  have h3 := momentAt_endpoints.2.2 slopeSection (by norm_num [slopeSection]) rfl
  refine ⟨?_, ?_, ?_, h3.2⟩
  · rw [h1.1]; simp [scenarioSection]
  · have := h1.2
    simp only [scenarioSection] at this ⊢
    norm_num at this ⊢
    exact this
  · rw [h2.2.2.2]; simp [scenarioRecord]

/-- C3: `inertiaMoment()` is the per-shape formula of the specification, the `π`
of the formula being the program's constant `M_PI` (so the value is within
`1e-20 * d ^ 4 / 32`, respectively `1e-20 * |D ^ 4 - d ^ 4| / 32`, of the formula
with the number `π`); rectangle: `a * b ^ 3 * β` with `r = b / a` and
`β = 1/3 - 0.21 * r * (1 - r ^ 4 / 12)`.  The sample values: circle `d = 0.05`
within `1e-11` of `6.13592e-7`; tube `D = 0.08`, `d = 0.04` within `1e-10` of
`3.7699e-6`; rectangle `a = 0.06`, `b = 0.03` has `r = 0.5` and
`J = 0.06 * 0.03 ^ 3 * (1/3 - 0.21 * 0.5 * (1 - 0.0625 / 12))`. -/
theorem inertiaMoment_formula (s : Section ℝ) :
    (s.shape = "circle" →
        s.inertiaMoment = M_PI * s.d ^ 4 / 32
          ∧ |s.inertiaMoment - Real.pi * s.d ^ 4 / 32| ≤ 1e-20 * s.d ^ 4 / 32
          ∧ (s.d = 0.05 → |s.inertiaMoment - 6.13592e-7| < 1e-11)) ∧
    (s.shape = "rectangle" →
        s.inertiaMoment
            = s.a * s.b ^ 3 * (1 / 3 - 0.21 * (s.b / s.a) * (1 - (s.b / s.a) ^ 4 / 12))
          ∧ (s.a = 0.06 → s.b = 0.03 →
              s.b / s.a = 0.5
                ∧ s.inertiaMoment = 0.06 * 0.03 ^ 3 * (1 / 3 - 0.21 * 0.5 * (1 - 0.0625 / 12)))) ∧
    (s.shape = "tube" →
        s.inertiaMoment = M_PI * (s.D ^ 4 - s.d ^ 4) / 32
          ∧ |s.inertiaMoment - Real.pi * (s.D ^ 4 - s.d ^ 4) / 32|
              ≤ 1e-20 * |s.D ^ 4 - s.d ^ 4| / 32
          ∧ (s.D = 0.08 → s.d = 0.04 → |s.inertiaMoment - 3.7699e-6| < 1e-10)) := by
  have hpi : |(M_PI : ℝ) - Real.pi| ≤ 1e-20 := by
    rw [abs_le]
    constructor <;> linarith [M_PI_lt_pi, pi_lt_M_PI_add]
  refine ⟨?_, ?_, ?_⟩
  · intro h
    rw [inertiaMoment_circle s h]
    refine ⟨rfl, ?_, ?_⟩
    · have e : M_PI * s.d ^ 4 / 32 - Real.pi * s.d ^ 4 / 32
          = (M_PI - Real.pi) * (s.d ^ 4 / 32) := by ring
      have hd : (0 : ℝ) ≤ s.d ^ 4 / 32 := by positivity
      rw [e, abs_mul, abs_of_nonneg hd]
      calc |(M_PI : ℝ) - Real.pi| * (s.d ^ 4 / 32) ≤ 1e-20 * (s.d ^ 4 / 32) :=
            mul_le_mul_of_nonneg_right hpi hd
        _ = 1e-20 * s.d ^ 4 / 32 := by ring
    · intro hd
      rw [hd]
      unfold M_PI
      rw [abs_lt]
      constructor <;> norm_num
  · intro h
    rw [inertiaMoment_rectangle s h]
    refine ⟨rfl, ?_⟩
    intro ha hb
    rw [ha, hb]
    constructor <;> norm_num
  · intro h
    rw [inertiaMoment_tube s h]
    refine ⟨rfl, ?_, ?_⟩
    · have e : M_PI * (s.D ^ 4 - s.d ^ 4) / 32 - Real.pi * (s.D ^ 4 - s.d ^ 4) / 32
          = (M_PI - Real.pi) * ((s.D ^ 4 - s.d ^ 4) / 32) := by ring
      rw [e, abs_mul, abs_div, abs_of_pos (by norm_num : (0 : ℝ) < 32)]
      calc |(M_PI : ℝ) - Real.pi| * (|s.D ^ 4 - s.d ^ 4| / 32)
            ≤ 1e-20 * (|s.D ^ 4 - s.d ^ 4| / 32) :=
            mul_le_mul_of_nonneg_right hpi (by positivity)
        _ = 1e-20 * |s.D ^ 4 - s.d ^ 4| / 32 := by ring
    · intro hD hd
      rw [hD, hd]
      unfold M_PI
      rw [abs_lt]
      constructor <;> norm_num

/-- Witness of C3 at the three sample sections. -/
theorem inertiaMoment_formula_witness :
    |(scenarioSection : Section ℝ).inertiaMoment - 6.13592e-7| < 1e-11
      ∧ |(exampleTube : Section ℝ).inertiaMoment - 3.7699e-6| < 1e-10
      ∧ (exampleRectangle : Section ℝ).inertiaMoment
          = 0.06 * 0.03 ^ 3 * (1 / 3 - 0.21 * 0.5 * (1 - 0.0625 / 12)) :=
  ⟨((inertiaMoment_formula scenarioSection).1 rfl).2.2 (by norm_num [scenarioSection]),
   ((inertiaMoment_formula exampleTube).2.2 rfl).2.2
      (by norm_num [exampleTube]) (by norm_num [exampleTube]),
   (((inertiaMoment_formula exampleRectangle).2.1 rfl).2
      (by norm_num [exampleRectangle]) (by norm_num [exampleRectangle])).2⟩

/-- C4: `main` exits with status 1 and no report block exactly when some record
has a shape name other than `circle`, `rectangle`, `tube`.  Otherwise it exits with
status 0 and prints as many blocks as there are records, the block at index `i`
being the report of the section read from the record at index `i`; that block is
the same in every run whose record at index `i` is the same, whatever the other
records and the uninitialised contents `junk`. -/
theorem main_exit_status (junk junk' : ℕ → Section ℝ) (rs rs' : List (Record ℝ)) :
    (((main junk rs).1 = 1 ∧ (main junk rs).2 = [])
        ↔ ∃ r ∈ rs, r.shape ≠ "circle" ∧ r.shape ≠ "rectangle" ∧ r.shape ≠ "tube") ∧
    ((∀ r ∈ rs, r.shape = "circle" ∨ r.shape = "rectangle" ∨ r.shape = "tube") →
        (main junk rs).1 = 0 ∧ (main junk rs).2.length = rs.length ∧
        (∀ (i : ℕ) (r : Record ℝ), rs[i]? = some r →
          ∃ s, readSection (junk i) r = some s ∧ (main junk rs).2[i]? = some (reportBlock i s)) ∧
        ((∀ r ∈ rs', r.shape = "circle" ∨ r.shape = "rectangle" ∨ r.shape = "tube") →
          ∀ (i : ℕ) (r : Record ℝ), rs[i]? = some r → rs'[i]? = some r →
            (main junk rs).2[i]? = (main junk' rs').2[i]?)) := by
  have hblocks : ∀ (jk : ℕ → Section ℝ) (l : List (Record ℝ)),
      (∀ r ∈ l, r.shape = "circle" ∨ r.shape = "rectangle" ∨ r.shape = "tube") →
      (main jk l).1 = 0 ∧ (main jk l).2.length = l.length ∧
        ∀ (i : ℕ) (r : Record ℝ), l[i]? = some r →
          ∃ s, readSection (jk i) r = some s ∧ (main jk l).2[i]? = some (reportBlock i s) := by
    intro jk l hall
    cases hl : readLoop jk 0 l [] with
    | none =>
      obtain ⟨r, hr, h1, h2, h3⟩ := (readLoop_eq_none_iff jk l 0 []).1 hl
      rcases hall r hr with h | h | h
      · exact absurd h h1
      · exact absurd h h2
      · exact absurd h h3
    | some out =>
      obtain ⟨ss, h1, h2, h3⟩ := readLoop_eq_some jk l 0 [] out hl
      simp only [List.nil_append] at h1
      subst h1
      have hm : main jk l = (0, reportLoop 0 out) := by
        unfold main
        rw [hl]
      refine ⟨by rw [hm], by rw [hm, reportLoop_length, h2], ?_⟩
      intro i r hi
      obtain ⟨s, hs1, hs2⟩ := h3 i r hi
      rw [Nat.zero_add] at hs1
      refine ⟨s, hs1, ?_⟩
      rw [hm]
      simp only [reportLoop_getElem, hs2, Option.map_some', Nat.zero_add]
  refine ⟨?_, ?_⟩
  · constructor
    · rintro ⟨h1, -⟩
      cases hl : readLoop junk 0 rs [] with
      | none => exact (readLoop_eq_none_iff junk rs 0 []).1 hl
      | some out =>
        unfold main at h1
        rw [hl] at h1
        simp at h1
    · intro h
      have hl := (readLoop_eq_none_iff junk rs 0 []).2 h
      unfold main
      rw [hl]
      exact ⟨rfl, rfl⟩
  · intro hall
    obtain ⟨h1, h2, h3⟩ := hblocks junk rs hall
    refine ⟨h1, h2, h3, ?_⟩
    intro hall' i r hi hi'
    obtain ⟨s, hs1, hs2⟩ := h3 i r hi
    obtain ⟨s', hs1', hs2'⟩ := (hblocks junk' rs' hall').2.2 i r hi'
    rw [hs2, hs2', reportBlock_readSection (junk i) (junk' i) r s s' i hs1 hs1']

/-- Witness of C4: the scenario alone gives status 0 and one block, and the
scenario followed by a `square` record gives status 1 and no block. -/
theorem main_exit_status_witness :
    ((main (fun _ => unset) [(scenarioRecord : Record ℝ)]).1 = 0
        ∧ (main (fun _ => unset) [(scenarioRecord : Record ℝ)]).2.length = 1)
      ∧ (main (fun _ => unset) [(scenarioRecord : Record ℝ), squareRecord]).1 = 1
      ∧ (main (fun _ => unset) [(scenarioRecord : Record ℝ), squareRecord]).2 = [] := by
  have h1 := (main_exit_status (fun _ => unset) (fun _ => unset)
    [(scenarioRecord : Record ℝ)] []).2 (by simp [scenarioRecord])
  have h2 := (main_exit_status (fun _ => unset) (fun _ => unset)
    [(scenarioRecord : Record ℝ), squareRecord] []).1.2
      ⟨squareRecord, by simp, by simp [squareRecord]⟩
  exact ⟨⟨h1.1, h1.2.1⟩, h2.1, h2.2⟩

/-- C5 (counterexample): on the section built from the end-to-end scenario the
value `twistAngle()` returns is not within relative error `1e-3` of `1.0189e-5`,
and `1.0189e-5` is not within relative error `1e-3` of
`(500 * 1.0) / (8e10 * 6.13592e-7)` either, whichever of the two is the reference. -/
theorem twistAngle_scenario_counterexample :
    readSection unset scenarioRecord = some (scenarioSection : Section ℝ)
      ∧ ¬ (|(scenarioSection : Section ℝ).twistAngle - 1.0189e-5| < 1e-3 * 1.0189e-5)
      ∧ ¬ (|(1.0189e-5 : ℝ) - (500 * 1.0) / (8e10 * 6.13592e-7)| < 1e-3 * 1.0189e-5)
      ∧ ¬ (|(1.0189e-5 : ℝ) - (500 * 1.0) / (8e10 * 6.13592e-7)|
            < 1e-3 * ((500 * 1.0) / (8e10 * 6.13592e-7))) := by
  have hJ : (scenarioSection : Section ℝ).inertiaMoment = M_PI * 0.05 ^ 4 / 32 :=
    inertiaMoment_circle _ rfl
  refine ⟨readSection_scenario, ?_, ?_, ?_⟩
  · rw [twistAngle_eq_scaled, hJ, not_lt, abs_sub_comm]
    refine le_trans ?_ (le_abs_self _)
    norm_num [M_PI, scenarioSection]
  · rw [not_lt, abs_sub_comm]
    refine le_trans ?_ (le_abs_self _)
    norm_num
  · rw [not_lt, abs_sub_comm]
    refine le_trans ?_ (le_abs_self _)
    norm_num

/-- C5 (amended): for the end-to-end scenario, whatever the uninitialised section,
the classical quotient `(M_end * L) / (G * inertiaMoment())` on the section `main`
builds agrees with `1.0189e-2` rad with relative error below `1e-3`, and
`1.0189e-2` equals `(500 * 1.0) / (8e10 * 6.13592e-7)` to the same precision. -/
theorem classical_twist_scenario (s0 : Section ℝ) :
    ∃ s : Section ℝ, readSection s0 scenarioRecord = some s
      ∧ |(s.M_end * s.L) / (s.G * s.inertiaMoment) - 1.0189e-2| < 1e-3 * 1.0189e-2
      ∧ |(1.0189e-2 : ℝ) - (500 * 1.0) / (8e10 * 6.13592e-7)| < 1e-3 * 1.0189e-2 := by
  refine ⟨{ shape := "circle", L := 1.0, G := 8e10, M0 := 1000, m := (1000 - 500) / 1.0,
            M_end := 500, d := 5 / 100.0, D := s0.D, a := s0.a, b := s0.b }, ?_, ?_, ?_⟩
  · simp [readSection, scenarioRecord]
  · rw [inertiaMoment_circle _ rfl, abs_lt]
    constructor <;> norm_num [M_PI]
  · rw [abs_lt]
    constructor <;> norm_num

/-- C6 (counterexample): from small side `b = 3` cm and ratio `h/b = 2` the
driver builds a section whose `b`, the dimension `inertiaMoment()` cubes and uses
as the numerator of `b / a`, is `0.03`, not `ratio * (b / 100) = 0.06`; it is `a`
that is `0.06`. -/
theorem rectangle_height_counterexample :
    ∃ s : Section ℝ, readSection unset rectangleRecord = some s
      ∧ s.b = 0.03 ∧ s.a = 0.06
      ∧ s.b ≠ (rectangleRecord : Record ℝ).ratio * ((rectangleRecord : Record ℝ).dim_cm / 100)
      ∧ s.inertiaMoment
          = s.a * s.b ^ 3 * (1 / 3 - 0.21 * (s.b / s.a) * (1 - (s.b / s.a) ^ 4 / 12)) := by
  refine ⟨{ shape := "rectangle", L := 1.0, G := 8e10, M0 := 1000, m := (1000 - 500) / 1.0,
            M_end := 500, d := 0, D := 0, a := 2 * (3 / 100.0), b := 3 / 100.0 },
          ?_, ?_, ?_, ?_, ?_⟩
  · simp [readSection, rectangleRecord, unset]
  · norm_num
  · norm_num
  · norm_num [rectangleRecord]
  · exact inertiaMoment_rectangle _ rfl

/-- C6 (amended): for a rectangle record entered as small side `b` (cm) and ratio
`h/b`, the section the driver builds has height `b / 100` metres and width
`ratio * (b / 100)` metres, where height is the dimension `inertiaMoment()` cubes
and uses as the numerator of `r = height / width`. -/
theorem rectangle_dimensions (s0 : Section ℝ) (r : Record ℝ) (h : r.shape = "rectangle") :
    ∃ s : Section ℝ, readSection s0 r = some s
      ∧ s.b = r.dim_cm / 100 ∧ s.a = r.ratio * (r.dim_cm / 100)
      ∧ s.inertiaMoment
          = s.a * s.b ^ 3 * (1 / 3 - 0.21 * (s.b / s.a) * (1 - (s.b / s.a) ^ 4 / 12)) := by
  refine ⟨{ shape := "rectangle", L := r.L, G := r.G, M0 := r.M0, m := (r.M0 - r.M_end) / r.L,
            M_end := r.M_end, d := s0.d, D := s0.D, a := r.ratio * (r.dim_cm / 100.0),
            b := r.dim_cm / 100.0 }, ?_, ?_, ?_, ?_⟩
  · simp [readSection, h]
  · norm_num
  · norm_num
  · exact inertiaMoment_rectangle _ rfl

/-- Witness of C6 (amended) at `b = 3` cm, `h/b = 2`. -/
theorem rectangle_dimensions_witness :
    ∃ s : Section ℝ, readSection unset rectangleRecord = some s
      ∧ s.b = (rectangleRecord : Record ℝ).dim_cm / 100
      ∧ s.a = (rectangleRecord : Record ℝ).ratio * ((rectangleRecord : Record ℝ).dim_cm / 100)
      ∧ s.inertiaMoment
          = s.a * s.b ^ 3 * (1 / 3 - 0.21 * (s.b / s.a) * (1 - (s.b / s.a) ^ 4 / 12)) :=
  rectangle_dimensions unset rectangleRecord rfl

/-- C7: `outerRadius()` is `d / 2` for a circle, `0.5 * √(a ^ 2 + b ^ 2)` for a
rectangle (which differs from `b / 2` as soon as `a ≠ 0`; for `a = 0.04`,
`b = 0.03` it is `0.025`) and `D / 2` for a tube (`0.04` for `D = 0.08`). -/
theorem outerRadius_formula (s : Section ℝ) :
    (s.shape = "circle" → s.outerRadius = s.d / 2) ∧
    (s.shape = "rectangle" →
        s.outerRadius = 0.5 * Real.sqrt (s.a ^ 2 + s.b ^ 2)
          ∧ (s.a ≠ 0 → s.outerRadius ≠ s.b / 2)
          ∧ (s.a = 0.04 → s.b = 0.03 → s.outerRadius = 0.025)) ∧
    (s.shape = "tube" → s.outerRadius = s.D / 2 ∧ (s.D = 0.08 → s.outerRadius = 0.04)) := by
  refine ⟨outerRadius_circle s, ?_, ?_⟩
  · intro h
    rw [outerRadius_rectangle s h]
    refine ⟨rfl, ?_, ?_⟩
    · intro ha hc
      have h1 : Real.sqrt (s.a ^ 2 + s.b ^ 2) = s.b := by linarith
      have h2 : 0 ≤ s.a ^ 2 + s.b ^ 2 := by positivity
      have h3 := Real.sq_sqrt h2
      rw [h1] at h3
      have h4 : s.a ^ 2 = 0 := by linarith
      exact ha (pow_eq_zero_iff (two_ne_zero) |>.1 h4)
    · intro ha hb
      rw [ha, hb]
      have e : ((0.04 : ℝ) ^ 2 + 0.03 ^ 2) = 0.05 ^ 2 := by norm_num
      rw [e, Real.sqrt_sq (by norm_num)]
      norm_num
  · intro h
    rw [outerRadius_tube s h]
    refine ⟨rfl, ?_⟩
    intro hD
    rw [hD]
    norm_num

/-- Witness of C7 at the three sample sections. -/
theorem outerRadius_formula_witness :
    (scenarioSection : Section ℝ).outerRadius = 0.05 / 2
      ∧ (exampleRectangle : Section ℝ).outerRadius ≠ 0.03 / 2
      ∧ (exampleTube : Section ℝ).outerRadius = 0.04 := by
  refine ⟨?_, ?_, ?_⟩
  · have h := (outerRadius_formula scenarioSection).1 rfl
    simpa [scenarioSection] using h
  · have h := ((outerRadius_formula exampleRectangle).2.1 rfl).2.1 (by norm_num [exampleRectangle])
    simpa [exampleRectangle] using h
  · exact ((outerRadius_formula exampleTube).2.2 rfl).2 (by norm_num [exampleTube])

/-- C8: for every section, so for each of the three shapes, `sectionModulus()`
is `inertiaMoment() / outerRadius()` of the same section. -/
theorem sectionModulus_eq (s : Section ℝ) :
    s.sectionModulus = s.inertiaMoment / s.outerRadius := rfl

/-- C9: with all other fields fixed, replacing `M_end` by `k * M_end` multiplies
`twistAngle()` by `k` (in particular doubling `M_end` doubles it), replacing `L` by
`k * L` multiplies it by `k`, and for `k ≠ 0` replacing `G` by `k * G` divides it
by `k`. -/
theorem twistAngle_homogeneous (s : Section ℝ) (k : ℝ) :
    ({ s with M_end := k * s.M_end } : Section ℝ).twistAngle = k * s.twistAngle
      ∧ ({ s with M_end := 2 * s.M_end } : Section ℝ).twistAngle = 2 * s.twistAngle
      ∧ ({ s with L := k * s.L } : Section ℝ).twistAngle = k * s.twistAngle
      ∧ (k ≠ 0 → ({ s with G := k * s.G } : Section ℝ).twistAngle = s.twistAngle / k) := by
  have hM : ∀ c : ℝ, ({ s with M_end := c * s.M_end } : Section ℝ).twistAngle
      = c * s.twistAngle := by
    intro c
    rw [twistAngle_eq_scaled, twistAngle_eq_scaled,
      inertiaMoment_congr s { s with M_end := c * s.M_end } rfl rfl rfl rfl rfl]
    simp only []
    ring
  refine ⟨hM k, hM 2, ?_, ?_⟩
  · rw [twistAngle_eq_scaled, twistAngle_eq_scaled,
      inertiaMoment_congr s { s with L := k * s.L } rfl rfl rfl rfl rfl]
    simp only []
    ring
  · intro hk
    rw [twistAngle_eq_scaled, twistAngle_eq_scaled,
      inertiaMoment_congr s { s with G := k * s.G } rfl rfl rfl rfl rfl]
    simp only []
    rw [div_div]
    congr 1
    ring

/-- Witness of C9: doubling `G` on the scenario section halves the twist angle. -/
theorem twistAngle_homogeneous_witness :
    ({ (scenarioSection : Section ℝ) with G := 2 * (scenarioSection : Section ℝ).G }
        : Section ℝ).twistAngle = (scenarioSection : Section ℝ).twistAngle / 2 :=
  (twistAngle_homogeneous scenarioSection 2).2.2.2 (by norm_num)

/-- C10: for a tube with `D > 0` and `d ≥ 0`, `inertiaMoment() > 0` if and only
if `d < D`; and the tube `main` builds from `D_cm > 0` and a ratio `d/D` in
`[0, 1)` has `inertiaMoment() > 0`. -/
theorem tube_inertiaMoment_pos :
    (∀ s : Section ℝ, s.shape = "tube" → 0 < s.D → 0 ≤ s.d →
        (0 < s.inertiaMoment ↔ s.d < s.D)) ∧
    (∀ (s0 : Section ℝ) (r : Record ℝ), r.shape = "tube" → 0 < r.dim_cm →
        0 ≤ r.ratio → r.ratio < 1 →
        ∃ s : Section ℝ, readSection s0 r = some s ∧ s.D = r.dim_cm / 100
          ∧ s.d = r.ratio * (r.dim_cm / 100) ∧ 0 < s.inertiaMoment) := by
  have key : ∀ s : Section ℝ, s.shape = "tube" → 0 < s.D → 0 ≤ s.d →
      (0 < s.inertiaMoment ↔ s.d < s.D) := by
    intro s h hD hd
    rw [inertiaMoment_tube s h]
    have hpi := M_PI_pos
    constructor
    · intro hJ
      by_contra hle
      push_neg at hle
      have h4 : s.D ^ 4 ≤ s.d ^ 4 := pow_le_pow_left₀ (le_of_lt hD) hle 4
      have : M_PI * (s.D ^ 4 - s.d ^ 4) / 32 ≤ 0 := by
        apply div_nonpos_of_nonpos_of_nonneg _ (by norm_num)
        exact mul_nonpos_of_nonneg_of_nonpos (le_of_lt hpi) (by linarith)
      linarith
    · intro hlt
      have h4 : s.d ^ 4 < s.D ^ 4 := pow_lt_pow_left₀ hlt hd (by norm_num)
      have : 0 < s.D ^ 4 - s.d ^ 4 := by linarith
      positivity
  refine ⟨key, ?_⟩
  intro s0 r h hdim h0 h1
  refine ⟨{ shape := "tube", L := r.L, G := r.G, M0 := r.M0, m := (r.M0 - r.M_end) / r.L,
            M_end := r.M_end, d := r.ratio * (r.dim_cm / 100.0), D := r.dim_cm / 100.0,
            a := s0.a, b := s0.b }, ?_, ?_, ?_, ?_⟩
  · simp [readSection, h]
  · norm_num
  · norm_num
  · have hD : (0 : ℝ) < r.dim_cm / 100.0 := by norm_num; exact hdim
    refine (key _ rfl hD (mul_nonneg h0 (le_of_lt hD))).2 ?_
    show r.ratio * (r.dim_cm / 100.0) < r.dim_cm / 100.0
    nlinarith

/-- Witness of C10 at the sample tube and at the record `D = 8` cm, `d/D = 0.5`. -/
theorem tube_inertiaMoment_pos_witness :
    (0 < (exampleTube : Section ℝ).inertiaMoment ↔
        (exampleTube : Section ℝ).d < (exampleTube : Section ℝ).D)
      ∧ ∃ s : Section ℝ, readSection unset
            ({ shape := "tube", dim_cm := 8, ratio := 0.5, L := 1.0, G := 8e10, M0 := 1000,
               M_end := 500 } : Record ℝ) = some s
          ∧ s.D = 8 / 100 ∧ s.d = 0.5 * (8 / 100) ∧ 0 < s.inertiaMoment :=
  ⟨tube_inertiaMoment_pos.1 exampleTube rfl (by norm_num [exampleTube])
      (by norm_num [exampleTube]),
   tube_inertiaMoment_pos.2 unset _ rfl (by norm_num) (by norm_num) (by norm_num)⟩

/-- C11: for the end-to-end scenario, whatever the uninitialised section, `main`
builds a section with `d = 0.05` and `m = 500` whose `sectionModulus()` is within
`1e-9` of `2.4544e-5` and whose `momentAt(1.0)` is `500`. -/
theorem sectionModulus_scenario (s0 : Section ℝ) :
    ∃ s : Section ℝ, readSection s0 scenarioRecord = some s
      ∧ s.d = 0.05 ∧ s.m = 500
      ∧ |s.sectionModulus - 2.4544e-5| < 1e-9
      ∧ s.momentAt 1.0 = 500 := by
  refine ⟨{ shape := "circle", L := 1.0, G := 8e10, M0 := 1000, m := (1000 - 500) / 1.0,
            M_end := 500, d := 5 / 100.0, D := s0.D, a := s0.a, b := s0.b }, ?_, ?_, ?_, ?_, ?_⟩
  · simp [readSection, scenarioRecord]
  · norm_num
  · norm_num
  · show |Section.inertiaMoment _ / Section.outerRadius _ - 2.4544e-5| < 1e-9
    rw [inertiaMoment_circle _ rfl, outerRadius_circle _ rfl, abs_lt]
    constructor <;> norm_num [M_PI]
  · norm_num [Section.momentAt]

/-- C12: for a section whose shape is none of `circle`, `rectangle`, `tube`,
`inertiaMoment()` and `outerRadius()` are `0`, whatever the other fields. -/
theorem unrecognised_shape_zero (s : Section ℝ) (h1 : s.shape ≠ "circle")
    (h2 : s.shape ≠ "rectangle") (h3 : s.shape ≠ "tube") :
    s.inertiaMoment = 0 ∧ s.outerRadius = 0 := by
  constructor
  · simp [Section.inertiaMoment, h1, h2, h3]
    norm_num
  · simp [Section.outerRadius, h1, h2, h3]
    norm_num

/-- Witness of C12 at a section of shape `square` with non-zero dimensions. -/
theorem unrecognised_shape_zero_witness :
    ({ shape := "square", L := 1, G := 8e10, M0 := 1000, m := 500, M_end := 500,
       d := 0.05, D := 0.08, a := 0.06, b := 0.03 } : Section ℝ).inertiaMoment = 0
      ∧ ({ shape := "square", L := 1, G := 8e10, M0 := 1000, m := 500, M_end := 500,
           d := 0.05, D := 0.08, a := 0.06, b := 0.03 } : Section ℝ).outerRadius = 0 :=
  unrecognised_shape_zero _ (by decide) (by decide) (by decide)

/-- C13: for a circle with `d > 0`, a rectangle with `a > 0` and `b > 0` and a tube
with `D > 0`, `outerRadius() > 0`, so `sectionModulus()` does not divide by zero. -/
theorem outerRadius_pos (s : Section ℝ) :
    (s.shape = "circle" → 0 < s.d → 0 < s.outerRadius) ∧
    (s.shape = "rectangle" → 0 < s.a → 0 < s.b → 0 < s.outerRadius) ∧
    (s.shape = "tube" → 0 < s.D → 0 < s.outerRadius) := by
  refine ⟨?_, ?_, ?_⟩
  · intro h hd
    rw [outerRadius_circle s h]
    positivity
  · intro h ha hb
    rw [outerRadius_rectangle s h]
    have : 0 < Real.sqrt (s.a ^ 2 + s.b ^ 2) := Real.sqrt_pos.2 (by positivity)
    positivity
  · intro h hD
    rw [outerRadius_tube s h]
    positivity

/-- Witness of C13 at the three sample sections. -/
theorem outerRadius_pos_witness :
    0 < (scenarioSection : Section ℝ).outerRadius
      ∧ 0 < (exampleRectangle : Section ℝ).outerRadius
      ∧ 0 < (exampleTube : Section ℝ).outerRadius :=
  ⟨(outerRadius_pos scenarioSection).1 rfl (by norm_num [scenarioSection]),
   (outerRadius_pos exampleRectangle).2.1 rfl (by norm_num [exampleRectangle])
      (by norm_num [exampleRectangle]),
   (outerRadius_pos exampleTube).2.2 rfl (by norm_num [exampleTube])⟩

/-- C14: two sections of the same shape that agree on that shape's parameters
(circle: `d`; rectangle: `a` and `b`; tube: `D` and `d`) have the same
`inertiaMoment()`, `outerRadius()` and `sectionModulus()`, whatever their other
fields; so two sections `main` builds from the same shape and geometry input have
them equal, whatever the uninitialised contents and the loading typed. -/
theorem geometry_reads_shape_fields (s t : Section ℝ) (hshape : t.shape = s.shape) :
    (s.shape = "circle" → t.d = s.d →
        t.inertiaMoment = s.inertiaMoment ∧ t.outerRadius = s.outerRadius
          ∧ t.sectionModulus = s.sectionModulus) ∧
    (s.shape = "rectangle" → t.a = s.a → t.b = s.b →
        t.inertiaMoment = s.inertiaMoment ∧ t.outerRadius = s.outerRadius
          ∧ t.sectionModulus = s.sectionModulus) ∧
    (s.shape = "tube" → t.D = s.D → t.d = s.d →
        t.inertiaMoment = s.inertiaMoment ∧ t.outerRadius = s.outerRadius
          ∧ t.sectionModulus = s.sectionModulus) ∧
    (∀ (s0 s0' : Section ℝ) (r r' : Record ℝ) (u u' : Section ℝ),
        r'.shape = r.shape → r'.dim_cm = r.dim_cm →
        (r.shape ≠ "circle" → r'.ratio = r.ratio) →
        readSection s0 r = some u → readSection s0' r' = some u' →
        u'.inertiaMoment = u.inertiaMoment ∧ u'.outerRadius = u.outerRadius
          ∧ u'.sectionModulus = u.sectionModulus) := by
  obtain ⟨k1, k2, k3⟩ := geometry_congr s t hshape
  refine ⟨k1, k2, k3, ?_⟩
  intro s0 s0' r r' u u' hs hdim hratio hu hu'
  have hv : ¬ (r.shape ≠ "circle" ∧ r.shape ≠ "rectangle" ∧ r.shape ≠ "tube") := by
    intro hc
    rw [(readSection_eq_none_iff s0 r).2 hc] at hu
    cases hu
  have hus : u.shape = r.shape := (readSection_loading s0 r u hu).1
  have hus' : u'.shape = r'.shape := (readSection_loading s0' r' u' hu').1
  have huu : u'.shape = u.shape := by rw [hus', hs, hus]
  obtain ⟨g1, g2, g3⟩ := readSection_geometry s0 r u hu
  obtain ⟨g1', g2', g3'⟩ := readSection_geometry s0' r' u' hu'
  obtain ⟨c1, c2, c3⟩ := geometry_congr u u' huu
  by_cases h1 : r.shape = "circle"
  · exact c1 (hus.trans h1) (by rw [g1' (hs.trans h1), g1 h1, hdim])
  · have hr := hratio h1
    by_cases h2 : r.shape = "rectangle"
    · obtain ⟨e1, e2⟩ := g2 h2
      obtain ⟨e1', e2'⟩ := g2' (hs.trans h2)
      exact c2 (hus.trans h2) (by rw [e2', e2, hdim, hr]) (by rw [e1', e1, hdim])
    · have h3 : r.shape = "tube" := by
        by_contra h3
        exact hv ⟨h1, h2, h3⟩
      obtain ⟨e1, e2⟩ := g3 h3
      obtain ⟨e1', e2'⟩ := g3' (hs.trans h3)
      exact c3 (hus.trans h3) (by rw [e1', e1, hdim]) (by rw [e2', e2, hdim, hr])

/-- Witness of C14: the sample tube and a tube with the same `D` and `d` but other
loading and other rectangle fields. -/
theorem geometry_reads_shape_fields_witness :
    ({ shape := "tube", L := 2, G := 1, M0 := 0, m := 3, M_end := 4,
       d := 0.04, D := 0.08, a := 7, b := 9 } : Section ℝ).inertiaMoment
        = (exampleTube : Section ℝ).inertiaMoment
      ∧ ({ shape := "tube", L := 2, G := 1, M0 := 0, m := 3, M_end := 4,
           d := 0.04, D := 0.08, a := 7, b := 9 } : Section ℝ).outerRadius
        = (exampleTube : Section ℝ).outerRadius
      ∧ ({ shape := "tube", L := 2, G := 1, M0 := 0, m := 3, M_end := 4,
           d := 0.04, D := 0.08, a := 7, b := 9 } : Section ℝ).sectionModulus
        = (exampleTube : Section ℝ).sectionModulus :=
  (geometry_reads_shape_fields exampleTube _ rfl).2.2.1 rfl rfl rfl

/-- C15: the rectangle `main` builds from small side `b_cm > 0` and ratio
`h/b ≥ 1` has width `a = ratio * b ≥ b`, and the ratio `r = b / a` used by
`inertiaMoment()` is `1 / ratio` with `0 < r ≤ 1`. -/
theorem rectangle_ratio_range (s0 : Section ℝ) (r : Record ℝ) (h : r.shape = "rectangle")
    (hb : 0 < r.dim_cm) (hr : 1 ≤ r.ratio) :
    ∃ s : Section ℝ, readSection s0 r = some s
      ∧ s.a = r.ratio * s.b ∧ s.b ≤ s.a
      ∧ s.b / s.a = 1 / r.ratio ∧ 0 < s.b / s.a ∧ s.b / s.a ≤ 1
      ∧ s.inertiaMoment
          = s.a * s.b ^ 3 * (1 / 3 - 0.21 * (1 / r.ratio) * (1 - (1 / r.ratio) ^ 4 / 12)) := by
  have hB : (0 : ℝ) < r.dim_cm / 100.0 := by norm_num; exact hb
  have hr0 : (0 : ℝ) < r.ratio := lt_of_lt_of_le one_pos hr
  have hq : r.dim_cm / 100.0 / (r.ratio * (r.dim_cm / 100.0)) = 1 / r.ratio := by
    field_simp
    ring
  refine ⟨{ shape := "rectangle", L := r.L, G := r.G, M0 := r.M0, m := (r.M0 - r.M_end) / r.L,
            M_end := r.M_end, d := s0.d, D := s0.D, a := r.ratio * (r.dim_cm / 100.0),
            b := r.dim_cm / 100.0 }, ?_, rfl, ?_, hq, ?_, ?_, ?_⟩
  · simp [readSection, h]
  · show r.dim_cm / 100.0 ≤ r.ratio * (r.dim_cm / 100.0)
    nlinarith
  · show 0 < r.dim_cm / 100.0 / (r.ratio * (r.dim_cm / 100.0))
    rw [hq]
    positivity
  · show r.dim_cm / 100.0 / (r.ratio * (r.dim_cm / 100.0)) ≤ 1
    rw [hq, div_le_one hr0]
    exact hr
  · rw [inertiaMoment_rectangle _ rfl]
    show r.ratio * (r.dim_cm / 100.0) * (r.dim_cm / 100.0) ^ 3 *
        (1 / 3 - 0.21 * (r.dim_cm / 100.0 / (r.ratio * (r.dim_cm / 100.0))) *
          (1 - (r.dim_cm / 100.0 / (r.ratio * (r.dim_cm / 100.0))) ^ 4 / 12)) = _
    rw [hq]

/-- Witness of C15 at `b = 3` cm, `h/b = 2`. -/
theorem rectangle_ratio_range_witness :
    ∃ s : Section ℝ, readSection unset rectangleRecord = some s
      ∧ s.a = (rectangleRecord : Record ℝ).ratio * s.b ∧ s.b ≤ s.a
      ∧ s.b / s.a = 1 / (rectangleRecord : Record ℝ).ratio ∧ 0 < s.b / s.a ∧ s.b / s.a ≤ 1
      ∧ s.inertiaMoment
          = s.a * s.b ^ 3 * (1 / 3 - 0.21 * (1 / (rectangleRecord : Record ℝ).ratio)
              * (1 - (1 / (rectangleRecord : Record ℝ).ratio) ^ 4 / 12)) :=
  rectangle_ratio_range unset rectangleRecord rfl (by norm_num [rectangleRecord])
    (by norm_num [rectangleRecord])

/-- C16: the denominator of `Section::twistAngle` is `G * inertiaMoment()` times
the fixed factor `10 ^ 6`, so for every section with `G * inertiaMoment() ≠ 0`,
`twistAngle() * 10 ^ 6 = (M_end * L) / (G * inertiaMoment())`. -/
theorem twistAngle_scale_factor (s : Section ℝ) (h : s.G * s.inertiaMoment ≠ 0) :
    s.G * pow 10 6 * (s.inertiaMoment * 1e8) * pow 10 (-8) = s.G * s.inertiaMoment * 10 ^ 6
      ∧ s.twistAngle * 10 ^ 6 = (s.M_end * s.L) / (s.G * s.inertiaMoment) := by
  constructor
  · unfold pow
    norm_num
    ring
  · rw [twistAngle_eq_scaled]
    field_simp
    ring

/-- Witness of C16 at the scenario section. -/
theorem twistAngle_scale_factor_witness :
    (scenarioSection : Section ℝ).twistAngle * 10 ^ 6
      = ((scenarioSection : Section ℝ).M_end * (scenarioSection : Section ℝ).L)
          / ((scenarioSection : Section ℝ).G * (scenarioSection : Section ℝ).inertiaMoment) :=
  (twistAngle_scale_factor scenarioSection (by
    rw [inertiaMoment_circle _ rfl]
    norm_num [M_PI, scenarioSection])).2

/-- C17: for a rectangle with `a > 0` and `b > 0`, the factor
`β = 1/3 - 0.21 * r * (1 - r ^ 4 / 12)` with `r = b / a` is positive, so
`inertiaMoment() > 0` and `twistAngle()` is positive, negative or zero exactly when
`M_end * L / G` is. -/
theorem rectangle_inertiaMoment_pos (s : Section ℝ) (h : s.shape = "rectangle") (ha : 0 < s.a)
    (hb : 0 < s.b) :
    0 < 1 / 3 - 0.21 * (s.b / s.a) * (1 - (s.b / s.a) ^ 4 / 12)
      ∧ 0 < s.inertiaMoment
      ∧ (0 < s.twistAngle ↔ 0 < s.M_end * s.L / s.G)
      ∧ (s.twistAngle < 0 ↔ s.M_end * s.L / s.G < 0)
      ∧ (s.twistAngle = 0 ↔ s.M_end * s.L / s.G = 0) := by
  have hβ := beta_pos (s.b / s.a) (div_pos hb ha)
  have hJ : 0 < s.inertiaMoment := by
    rw [inertiaMoment_rectangle s h]
    positivity
  have hc : 0 < s.inertiaMoment * 10 ^ 6 := by positivity
  have e : s.twistAngle = s.M_end * s.L / s.G / (s.inertiaMoment * 10 ^ 6) := by
    rw [twistAngle_eq_scaled, div_div, mul_assoc]
  refine ⟨hβ, hJ, ?_, ?_, ?_⟩
  · rw [e, div_pos_iff_of_pos_right hc]
  · rw [e, div_lt_iff₀ hc, zero_mul]
  · rw [e, div_eq_zero_iff]
    constructor
    · rintro (h0 | h0)
      · exact h0
      · exact absurd h0 (ne_of_gt hc)
    · intro h0
      exact Or.inl h0

/-- Witness of C17 at the sample rectangle. -/
theorem rectangle_inertiaMoment_pos_witness :
    0 < (exampleRectangle : Section ℝ).inertiaMoment
      ∧ (0 < (exampleRectangle : Section ℝ).twistAngle
          ↔ 0 < (exampleRectangle : Section ℝ).M_end * (exampleRectangle : Section ℝ).L
              / (exampleRectangle : Section ℝ).G) :=
  ⟨(rectangle_inertiaMoment_pos exampleRectangle rfl (by norm_num [exampleRectangle])
      (by norm_num [exampleRectangle])).2.1,
   (rectangle_inertiaMoment_pos exampleRectangle rfl (by norm_num [exampleRectangle])
      (by norm_num [exampleRectangle])).2.2.1⟩

/-- C18: `sectionModulus()` is `π * d ^ 3 / 16` for a circle with `d ≠ 0` and
`π * (D ^ 4 - d ^ 4) / (16 * D)` for a tube with `D ≠ 0`, the `π` being the program's
constant `M_PI`; the value is within `1e-20` times the geometric factor of the
closed form with the number `π`. -/
theorem sectionModulus_closed_form (s : Section ℝ) :
    (s.shape = "circle" → s.d ≠ 0 →
        s.sectionModulus = M_PI * s.d ^ 3 / 16
          ∧ |s.sectionModulus - Real.pi * s.d ^ 3 / 16| ≤ 1e-20 * |s.d| ^ 3 / 16) ∧
    (s.shape = "tube" → s.D ≠ 0 →
        s.sectionModulus = M_PI * (s.D ^ 4 - s.d ^ 4) / (16 * s.D)
          ∧ |s.sectionModulus - Real.pi * (s.D ^ 4 - s.d ^ 4) / (16 * s.D)|
              ≤ 1e-20 * |(s.D ^ 4 - s.d ^ 4) / (16 * s.D)|) := by
  have hpi : |(M_PI : ℝ) - Real.pi| ≤ 1e-20 := by
    rw [abs_le]
    constructor <;> linarith [M_PI_lt_pi, pi_lt_M_PI_add]
  have hbound : ∀ x : ℝ, |M_PI * x - Real.pi * x| ≤ 1e-20 * |x| := by
    intro x
    rw [← sub_mul, abs_mul]
    exact mul_le_mul_of_nonneg_right hpi (abs_nonneg x)
  refine ⟨?_, ?_⟩
  · intro h hd
    have e : s.sectionModulus = M_PI * s.d ^ 3 / 16 := by
      show s.inertiaMoment / s.outerRadius = _
      rw [inertiaMoment_circle s h, outerRadius_circle s h]
      field_simp
      ring
    refine ⟨e, ?_⟩
    rw [e]
    have := hbound (s.d ^ 3 / 16)
    rw [abs_div, abs_pow, abs_of_pos (by norm_num : (0 : ℝ) < 16)] at this
    calc |M_PI * s.d ^ 3 / 16 - Real.pi * s.d ^ 3 / 16|
          = |M_PI * (s.d ^ 3 / 16) - Real.pi * (s.d ^ 3 / 16)| := by ring_nf
      _ ≤ 1e-20 * (|s.d| ^ 3 / 16) := this
      _ = 1e-20 * |s.d| ^ 3 / 16 := by ring
  · intro h hD
    have e : s.sectionModulus = M_PI * (s.D ^ 4 - s.d ^ 4) / (16 * s.D) := by
      show s.inertiaMoment / s.outerRadius = _
      rw [inertiaMoment_tube s h, outerRadius_tube s h]
      field_simp
      ring
    refine ⟨e, ?_⟩
    rw [e]
    have := hbound ((s.D ^ 4 - s.d ^ 4) / (16 * s.D))
    calc |M_PI * (s.D ^ 4 - s.d ^ 4) / (16 * s.D) - Real.pi * (s.D ^ 4 - s.d ^ 4) / (16 * s.D)|
          = |M_PI * ((s.D ^ 4 - s.d ^ 4) / (16 * s.D))
              - Real.pi * ((s.D ^ 4 - s.d ^ 4) / (16 * s.D))| := by ring_nf
      _ ≤ 1e-20 * |(s.D ^ 4 - s.d ^ 4) / (16 * s.D)| := this

/-- Witness of C18 at the scenario section and the sample tube. -/
theorem sectionModulus_closed_form_witness :
    (scenarioSection : Section ℝ).sectionModulus
        = M_PI * (scenarioSection : Section ℝ).d ^ 3 / 16
      ∧ (exampleTube : Section ℝ).sectionModulus
        = M_PI * ((exampleTube : Section ℝ).D ^ 4 - (exampleTube : Section ℝ).d ^ 4)
            / (16 * (exampleTube : Section ℝ).D) :=
  ⟨((sectionModulus_closed_form scenarioSection).1 rfl (by norm_num [scenarioSection])).1,
   ((sectionModulus_closed_form exampleTube).2 rfl (by norm_num [exampleTube])).1⟩

end Claims

end ShaftTorsion
